import Mathlib

/-!
# Verification of `haufe.requestmonitoring` — `timelogging.py`

A shallow embedding of `src/haufe/requestmonitoring/timelogging.py` in Lean 4,
together with theorems settling the specification claims about it.

Modelling conventions:
* Python `float` timestamps (`time.time()` results and their differences) are
  modelled as rationals `ℚ`; all concrete values used by the claims are exact
  decimals, so no binary-float rounding arises.
* Python `dict` (both the module-global `_state` table and a response's
  `__dict__`) is modelled as an association list with unique keys in the
  states that Python can actually build; operations follow `dict` semantics
  (assignment replaces in place, `del` removes the key, `update` merges).
* Python exceptions (`KeyError`, `AssertionError`, and errors raised by the
  external `IStatus` adapter) are modelled with an error type; a function that
  can raise returns `Except PyError α` together with the state at the moment
  the exception propagates, since Python exceptions do not roll back side
  effects already performed.
* `strftime` is external: the formatted timestamp is passed in as an opaque
  string `ts`.
-/

namespace Timelogging

/-- Errors that the embedded code can raise. -/
inductive PyError where
  | keyError (id : Int)
  | assertionError
  | adapterError
  deriving DecidableEq, Repr

/-! ## Python `dict` model (association list, `dict` semantics) -/

/-- A Python `dict` with `String` keys and values in `α`. -/
abbrev Dict (α : Type) := List (String × α)

namespace Dict

/-- `d[k]` as an option: first binding for `k`. -/
def get {α : Type} (d : Dict α) (k : String) : Option α :=
  match d with
  | [] => none
  | (k', v) :: rest => if k' = k then some v else get rest k

/-- `d[k] = v`: replace the binding in place if present, else append. -/
def set {α : Type} (d : Dict α) (k : String) (v : α) : Dict α :=
  match d with
  | [] => [(k, v)]
  | (k', v') :: rest => if k' = k then (k', v) :: rest else (k', v') :: set rest k v

/-- `d.update(other)`: set every binding of `other` into `d`. -/
def update {α : Type} (d other : Dict α) : Dict α :=
  other.foldl (fun acc kv => set acc kv.1 kv.2) d

/-- The keys of the dict. -/
def keys {α : Type} (d : Dict α) : List String := d.map Prod.fst

end Dict

/-! ## The request-timing table `_state` -/

/-- The module-global `_state : dict` mapping request id to start time. -/
abbrev Table := List (Int × ℚ)

namespace Table

/-- `_state[id]` lookup: first binding for `id`. -/
def lookup (t : Table) (id : Int) : Option ℚ :=
  match t with
  | [] => none
  | (i, v) :: rest => if i = id then some v else lookup rest id

/-- `_state[id] = ct`: replace in place if present, else append. -/
def insert (t : Table) (id : Int) (ct : ℚ) : Table :=
  match t with
  | [] => [(id, ct)]
  | (i, v) :: rest => if i = id then (i, ct) :: rest else (i, v) :: insert rest id ct

/-- `del _state[id]`: remove the binding(s) for `id`. -/
def erase (t : Table) (id : Int) : Table :=
  t.filter (fun p => p.1 ≠ id)

end Table

/-! ## Record formatting: `_log_format = '%s %3d %10.4f %c %6d %s\n'` -/

/-- The literal `_log_time_format` constant of the module. -/
def log_time_format : String := "%y%m%dT%H%M%S"

/-- Left-pad a string with spaces to width `w` (Python `%Nd` right-justify;
no truncation when the string is wider). -/
def padLeft (s : String) (w : Nat) : String :=
  String.mk (List.replicate (w - s.length) ' ') ++ s

/-- Left-pad a string with zeros to width `w`. -/
def padZeros (s : String) (w : Nat) : String :=
  String.mk (List.replicate (w - s.length) '0') ++ s

/-- Python `'%d' % n` for an integer. -/
def intStr (n : Int) : String := Int.repr n

/-- Python `'%.4f' % q` on an exact rational: the integer nearest to
`|q| * 10^4` (ties to even, as the C library rounds the underlying double),
rendered with a sign, integer part, `.`, and exactly four fractional digits.
Computed on `q.num`/`q.den` directly so the kernel can evaluate it. -/
def formatFixed4 (q : ℚ) : String :=
  let sign := if q.num < 0 then "-" else ""
  let nn : Nat := q.num.natAbs * 10000
  let d : Nat := q.den
  let fl : Nat := nn / d
  let r : Nat := nn % d
  let m : Nat :=
    if d < 2 * r then fl + 1
    else if 2 * r < d then fl
    else if fl % 2 = 0 then fl else fl + 1
  sign ++ Nat.repr (m / 10000) ++ "." ++ padZeros (Nat.repr (m % 10000)) 4

/-- One log record: the tuple of arguments interpolated into `_log_format`.
`ts` stands for `strftime(_log_time_format)` at emission time. -/
structure Record where
  ts : String
  status : Int
  request_time : ℚ
  kind : Char
  request_id : Int
  info : String
  deriving Repr

/-- `_log_format % (ts, status, request_time, type, request_id, info)`:
`'%s %3d %10.4f %c %6d %s\n'`. -/
def log_format (ts : String) (status : Int) (request_time : ℚ)
    (type : Char) (request_id : Int) (info : String) : String :=
  ts ++ " " ++ padLeft (intStr status) 3 ++ " " ++
    padLeft (formatFixed4 request_time) 10 ++ " " ++ String.mk [type] ++ " " ++
    padLeft (intStr request_id) 6 ++ " " ++ info ++ "\n"

/-- Render a `Record` through `_log_format`. -/
def render (r : Record) : String :=
  log_format r.ts r.status r.request_time r.kind r.request_id r.info

/-! ## The `_log` sink dispatch -/

/-- The `STDERR` sentinel constant. -/
def STDERR : String := "/dev/stderr"

/-- The module-global `_logfile` after configuration: the stderr sentinel
string, or a `Rotator(filebase, lock=True)`.  The global is `None` before
`start_timelogging` runs or when no configuration is present. -/
inductive Logfile where
  | stderrSentinel
  | rotator (filebase : String)
  deriving DecidableEq, Repr

/-- What one call to `_log` does to the outside world. -/
inductive LogOutput where
  | nothing
  | loggerInfo (line : String)
  | fileWrite (line : String)
  deriving DecidableEq, Repr

/-- Python `str.strip()` whitespace test (ASCII cases). -/
def isPyWhitespace (c : Char) : Bool :=
  c = ' ' || c = '\t' || c = '\n' || c = '\r' || c = '\x0b' || c = '\x0c'

/-- Python `s.strip()`: drop leading and trailing whitespace. -/
def pythonStrip (s : String) : String :=
  String.mk (((s.data.dropWhile isPyWhitespace).reverse.dropWhile isPyWhitespace).reverse)

/-- The tail of `_log`: render the record, then if `_logfile` is `None` do
nothing; if it is the stderr sentinel, call `_LOGGER.info(string.strip())`;
otherwise `_logfile.write(string)`. -/
def log_emit (lf : Option Logfile) (r : Record) : LogOutput :=
  let string := render r
  match lf with
  | none => .nothing
  | some .stderrSentinel => .loggerInfo (pythonStrip string)
  | some (.rotator _) => .fileWrite string

/-! ## `account_request` -/

/-- `account_request(request, status=0)`.  `ts` is `strftime` at emission
time, `ct` is `time()`, `id`/`info` are `ITicket(request).id` and
`str(IInfo(request))`.  Returns the record handed to `_log` (or the raised
error) together with the table after the critical section; a `KeyError`
from `_state[id]` propagates before the `del`, leaving the table unchanged
and emitting nothing. -/
def account_request (table : Table) (ts : String) (ct : ℚ)
    (id : Int) (info : String) (status : Int) : Except PyError Record × Table :=
  let type : Char := if status ≠ 0 then '-' else '+'
  if status ≠ 0 then
    match Table.lookup table id with
    | none => (.error (.keyError id), table)
    | some t0 =>
      (.ok ⟨ts, status, ct - t0, type, id, info⟩, Table.erase table id)
  else
    (.ok ⟨ts, status, 0, type, id, info⟩, Table.insert table id ct)

/-! ## Event handlers -/

/-- The mutable state the handlers touch: the module-global `_state` table
and the current request's `response.__dict__` (observable fields, values
modelled as integers). -/
structure World where
  table : Table
  response : Dict Int
  deriving Repr

/-- `response.getStatus()`: the `status` attribute of the response. -/
def getStatus (d : Dict Int) : Int := (Dict.get d "status").getD 0

/-- `response.setStatus(v)`: overwrite the `status` attribute. -/
def setStatus (d : Dict Int) (v : Int) : Dict Int := Dict.set d "status" v

/-- The optional `IStatus` adapter for the response: absent (so that
`IStatus(response, None)` yields `None`), or a function of the response
state that returns a status or raises. -/
abbrev StatusAdapter := Option (Dict Int → Except PyError Int)

/-- Lines 133–137: `status = IStatus(response, None)`; if that is `None`,
`status = response.getStatus()`, else `status = int(status)`.  The adapter
may itself raise. -/
def resolve_status (istatus : StatusAdapter) (response : Dict Int) :
    Except PyError Int :=
  match istatus with
  | none => .ok (getStatus response)
  | some f => f response

/-- `handle_request_success(event)`: resolve the status via the `IStatus`
adapter, falling back to `response.getStatus()`; `assert status`; then
`account_request(request, status)`. -/
def handle_request_success (istatus : StatusAdapter) (ts : String) (ct : ℚ)
    (id : Int) (info : String) (w : World) : Except PyError Record × World :=
  match resolve_status istatus w.response with
  | .error e => (.error e, w)
  | .ok status =>
    if status = 0 then (.error .assertionError, w)
    else
      let (res, table') := account_request w.table ts ct id info status
      (res, { w with table := table' })

/-- An `IPubFailure` event: request id and info, the `retry` flag, and the
status that `response.setStatus(event.exc_info[0])` would force. -/
structure FailureEvent where
  id : Int
  info : String
  retry : Bool
  excStatus : Int
  deriving Repr

/-- `handle_request_failure(event)`: on `event.retry`,
`account_request(request, 390)`; otherwise save `response.__dict__.copy()`,
force the status from the exception, delegate to
`handle_request_success(event)`, and — only on its normal return, there being
no `try/finally` — restore via `response.__dict__.update(saved)`. -/
def handle_request_failure (istatus : StatusAdapter) (ts : String) (ct : ℚ)
    (ev : FailureEvent) (w : World) : Except PyError Record × World :=
  if ev.retry then
    let (res, table') := account_request w.table ts ct ev.id ev.info 390
    (res, { w with table := table' })
  else
    let saved := w.response
    let w1 := { w with response := setStatus w.response ev.excStatus }
    match handle_request_success istatus ts ct ev.id ev.info w1 with
    | (.ok r, w2) => (.ok r, { w2 with response := Dict.update w2.response saved })
    | (.error e, w2) => (.error e, w2)

/-- `handle_request_start(event)`: `account_request(event.request)` with the
default `status=0`. -/
def handle_request_start (ts : String) (ct : ℚ) (id : Int) (info : String)
    (w : World) : Except PyError Record × World :=
  let (res, table') := account_request w.table ts ct id info 0
  (res, { w with table := table' })

/-! ## `start_timelogging` -/

/-- The `product-config` section named `timelogging`, when present: its
`filebase` key. -/
structure ProductConfig where
  filebase : String
  deriving Repr

/-- One externally visible action of `start_timelogging`, in program order. -/
inductive Action where
  | emit (r : Record) (out : LogOutput)
  | register (handler : String)
  deriving Repr

/-- `start_timelogging(unused)`: if no `timelogging` config section exists,
return with no effect.  Otherwise set `_logfile` (the stderr sentinel when
`filebase == STDERR`, else a `Rotator`), call `_log('0', info='restarted')`,
then `provideHandler` the three publication observers, in that order.
Returns the final `_logfile` and the ordered action list. -/
def start_timelogging (ts : String) (config : Option ProductConfig) :
    Option Logfile × List Action :=
  match config with
  | none => (none, [])
  | some cfg =>
    let lf : Logfile :=
      if cfg.filebase = STDERR then .stderrSentinel else .rotator cfg.filebase
    let restartRecord : Record := ⟨ts, 0, 0, '0', 0, "restarted"⟩
    (some lf,
     [.emit restartRecord (log_emit (some lf) restartRecord),
      .register "handle_request_start",
      .register "handle_request_success",
      .register "handle_request_failure"])

/-- The record carried by an `emit` action, if any. -/
def Action.emittedRecord : Action → Option Record
  | .emit r _ => some r
  | _ => none

/-- Whether an action is a `provideHandler` registration. -/
def Action.isRegister : Action → Bool
  | .register _ => true
  | _ => false

/-! ## Interleaving model of the locking discipline around `_state`

`account_request` touches the shared `_state` dict only between
`_lock.acquire()` and `_lock.release()`, and calls `_log` after releasing.
Each call is modelled as a sequence of atomic thread steps; the compound
lookup-subtract-delete of the terminal branch is a single step because the
lock brackets it (that bracketing is what the code's critical section
provides).  The scheduler may interleave two threads arbitrarily; `acquire`
blocks while the lock is taken. -/

/-- One atomic step of a thread executing `account_request`. -/
inductive ThreadStep where
  | acquire
  | beginOp (id : Int) (ct : ℚ)
  | endOp (id : Int) (ct : ℚ)
  | release
  | logOp
  deriving DecidableEq, Repr

/-- Is this step a mutation of the shared `_state` map? -/
def isMapOp : ThreadStep → Bool
  | .beginOp _ _ => true
  | .endOp _ _ => true
  | _ => false

/-- Does the program start with a map operation? -/
def headIsMapOp : List ThreadStep → Bool
  | st :: _ => isMapOp st
  | [] => false

/-- How many map operations a program performs. -/
def mapOpCount (p : List ThreadStep) : Nat := (p.filter isMapOp).length

/-- `account_request(request)` (start branch) as a step sequence. -/
def beginProgram (id : Int) (ct : ℚ) : List ThreadStep :=
  [.acquire, .beginOp id ct, .release, .logOp]

/-- `account_request(request, status≠0)` (terminal branch) as a step
sequence. -/
def endProgram (id : Int) (ct : ℚ) : List ThreadStep :=
  [.acquire, .endOp id ct, .release, .logOp]

/-- Checks the locking discipline of a program: map operations occur only
between an `acquire` and the matching `release`, and `logOp` only outside.
The flag records whether the lock is currently held. -/
def lockDisciplineAux : Bool → List ThreadStep → Bool
  | false, [] => true
  | false, .acquire :: rest => lockDisciplineAux true rest
  | false, .logOp :: rest => lockDisciplineAux false rest
  | false, _ => false
  | true, .beginOp _ _ :: rest => lockDisciplineAux true rest
  | true, .endOp _ _ :: rest => lockDisciplineAux true rest
  | true, .release :: rest => lockDisciplineAux false rest
  | true, _ => false

/-- A program obeys the locking discipline (starting unlocked). -/
def lockDiscipline (p : List ThreadStep) : Bool := lockDisciplineAux false p

/-- The private state of one thread: its remaining program, whether it holds
`_lock`, and the outcome of its `_state` access (for a terminal call, the
computed duration or the `KeyError`). -/
structure ThreadState where
  prog : List ThreadStep
  holding : Bool
  result : Option (Except PyError ℚ)
  deriving Repr

/-- A two-thread system: the single `_lock` (holder `false` = thread A,
`true` = thread B), the shared `_state` table, and the two threads. -/
structure Sys where
  lock : Option Bool
  table : Table
  thA : ThreadState
  thB : ThreadState
  deriving Repr

/-- Select a thread. -/
def Sys.th (s : Sys) : Bool → ThreadState
  | false => s.thA
  | true => s.thB

/-- Replace a thread. -/
def Sys.setTh (s : Sys) : Bool → ThreadState → Sys
  | false, t => { s with thA := t }
  | true, t => { s with thB := t }

/-- The interleaving semantics: any thread whose next step is enabled may
take it.  `acquire` is enabled only while the lock is free; the map steps
follow the code (`_state[id] = ct`; or `ct - _state[id]` then `del`, with
`KeyError` when absent, both under the lock in one indivisible region). -/
inductive SysStep : Sys → Sys → Prop where
  | acquireStep (s : Sys) (w : Bool) (p : List ThreadStep)
      (hp : (s.th w).prog = .acquire :: p) (hl : s.lock = none) :
      SysStep s { s.setTh w { s.th w with prog := p, holding := true } with lock := some w }
  | beginStep (s : Sys) (w : Bool) (p : List ThreadStep) (id : Int) (ct : ℚ)
      (hp : (s.th w).prog = .beginOp id ct :: p) :
      SysStep s { s.setTh w { s.th w with prog := p } with table := Table.insert s.table id ct }
  | endStepHit (s : Sys) (w : Bool) (p : List ThreadStep) (id : Int)
      (ct t0 : ℚ) (hp : (s.th w).prog = .endOp id ct :: p)
      (hl : Table.lookup s.table id = some t0) :
      SysStep s { s.setTh w { s.th w with prog := p, result := some (.ok (ct - t0)) } with table := Table.erase s.table id }
  | endStepMiss (s : Sys) (w : Bool) (p : List ThreadStep) (id : Int) (ct : ℚ)
      (hp : (s.th w).prog = .endOp id ct :: p)
      (hl : Table.lookup s.table id = none) :
      SysStep s (s.setTh w { s.th w with prog := p, result := some (.error (.keyError id)) })
  | releaseStep (s : Sys) (w : Bool) (p : List ThreadStep)
      (hp : (s.th w).prog = .release :: p) :
      SysStep s { s.setTh w { s.th w with prog := p, holding := false } with lock := none }
  | logStep (s : Sys) (w : Bool) (p : List ThreadStep)
      (hp : (s.th w).prog = .logOp :: p) :
      SysStep s (s.setTh w { s.th w with prog := p })

/-- Reflexive-transitive closure of the interleaving step. -/
def Reachable : Sys → Sys → Prop := Relation.ReflTransGen SysStep

/-- Did this thread obtain a duration (a successful read-then-delete)? -/
def ThreadState.gotDuration (th : ThreadState) : Bool :=
  match th.result with
  | some (.ok _) => true
  | _ => false

/-- Two concurrent terminal calls for the same id `id`, with one open entry
`(id, t0)` in the table. -/
def initSys (id : Int) (ct1 ct2 t0 : ℚ) : Sys :=
  { lock := none
    table := [(id, t0)]
    thA := { prog := endProgram id ct1, holding := false, result := none }
    thB := { prog := endProgram id ct2, holding := false, result := none } }

/-- The positions a thread running `endProgram id ct` can be in, with the
lock and result bookkeeping each position implies. -/
def threadShape (id : Int) (ct : ℚ) (th : ThreadState) : Prop :=
  (th.prog = endProgram id ct ∧ th.holding = false ∧ th.result = none) ∨
  (th.prog = [.endOp id ct, .release, .logOp] ∧ th.holding = true ∧
    th.result = none) ∨
  (th.prog = [.release, .logOp] ∧ th.holding = true) ∨
  (th.prog = [.logOp] ∧ th.holding = false) ∨
  (th.prog = [] ∧ th.holding = false)

/-- Inductive invariant of the two-terminal-calls system: thread shapes,
lock ownership, and single-consumption of the open entry. -/
def Inv (id : Int) (ct1 ct2 t0 : ℚ) (s : Sys) : Prop :=
  threadShape id ct1 s.thA ∧ threadShape id ct2 s.thB ∧
  (s.thA.holding = true → s.lock = some false) ∧
  (s.thB.holding = true → s.lock = some true) ∧
  ((s.table = [(id, t0)] ∧ s.thA.gotDuration = false ∧
      s.thB.gotDuration = false) ∨
    (s.table = [] ∧ ¬(s.thA.gotDuration = true ∧ s.thB.gotDuration = true)))

/-! ## Helper lemmas on the table and dict models -/

theorem lookup_insert_self (t : Table) (id : Int) (ct : ℚ) :
    Table.lookup (Table.insert t id ct) id = some ct := by
  induction t with
  | nil => simp [Table.insert, Table.lookup]
  | cons hd tl ih =>
    by_cases h : hd.1 = id <;> simp [Table.insert, Table.lookup, h, ih]

theorem lookup_erase_self (t : Table) (id : Int) :
    Table.lookup (Table.erase t id) id = none := by
  induction t with
  | nil => simp [Table.erase, Table.lookup]
  | cons hd tl ih =>
    by_cases h : hd.1 = id <;>
      simp_all [Table.erase, Table.lookup, List.filter, h]

theorem get_set_self {α : Type} (d : Dict α) (k : String) (v : α) :
    Dict.get (Dict.set d k v) k = some v := by
  induction d with
  | nil => simp [Dict.set, Dict.get]
  | cons hd tl ih =>
    by_cases h : hd.1 = k <;> simp [Dict.set, Dict.get, h, ih]

theorem get_set_ne {α : Type} (d : Dict α) (k k' : String) (v : α) (h : k ≠ k') :
    Dict.get (Dict.set d k v) k' = Dict.get d k' := by
  induction d with
  | nil => simp [Dict.set, Dict.get, h]
  | cons hd tl ih =>
    by_cases hh : hd.1 = k
    · simp [Dict.set, Dict.get, hh, h]
    · simp [Dict.set, Dict.get, hh, ih]

theorem get_update_not_mem {α : Type} (d other : Dict α) (k : String)
    (h : k ∉ Dict.keys other) :
    Dict.get (Dict.update d other) k = Dict.get d k := by
  induction other generalizing d with
  | nil => simp [Dict.update]
  | cons hd tl ih =>
    simp only [Dict.keys, List.map_cons, List.mem_cons] at h
    push_neg at h
    have hstep : Dict.update d (hd :: tl) = Dict.update (Dict.set d hd.1 hd.2) tl := rfl
    rw [hstep, ih _ (by simpa [Dict.keys] using h.2), get_set_ne _ _ _ _ (fun e => h.1 e.symm)]

theorem get_update_mem {α : Type} (d other : Dict α) (k : String) (v : α)
    (hnd : (Dict.keys other).Nodup) (h : Dict.get other k = some v) :
    Dict.get (Dict.update d other) k = some v := by
  induction other generalizing d with
  | nil => simp [Dict.get] at h
  | cons hd tl ih =>
    simp only [Dict.keys, List.map_cons, List.nodup_cons] at hnd
    have hstep : Dict.update d (hd :: tl) = Dict.update (Dict.set d hd.1 hd.2) tl := rfl
    by_cases hk : hd.1 = k
    · subst hk
      simp only [Dict.get, if_pos trivial] at h
      rw [hstep, get_update_not_mem _ _ _ (by simpa [Dict.keys] using hnd.1), get_set_self]
      simpa using h
    · simp only [Dict.get, if_neg hk] at h
      rw [hstep, ih _ hnd.2 h]


/-! ## Invariant lemmas for the interleaving model -/

theorem Inv_init (id : Int) (ct1 ct2 t0 : ℚ) :
    Inv id ct1 ct2 t0 (initSys id ct1 ct2 t0) := by
  simp [Inv, initSys, threadShape, ThreadState.gotDuration]

theorem Inv_step {id : Int} {ct1 ct2 t0 : ℚ} {s s' : Sys}
    (hinv : Inv id ct1 ct2 t0 s) (hstep : SysStep s s') :
    Inv id ct1 ct2 t0 s' := by
  obtain ⟨shA, shB, lkA, lkB, acct⟩ := hinv
  cases hstep with
  | acquireStep w p hp hl =>
    cases w
    case false =>
      simp only [Sys.th] at hp
      rcases shA with ⟨hprog, hhold, hres⟩ | ⟨hprog, hhold, hres⟩ |
        ⟨hprog, hhold⟩ | ⟨hprog, hhold⟩ | ⟨hprog, hhold⟩ <;>
        rw [hprog] at hp <;> simp [endProgram] at hp
      subst hp
      have hBnot : s.thB.holding = false := by
        cases hB : s.thB.holding
        · rfl
        · exact absurd (lkB hB) (by rw [hl]; simp)
      refine ⟨?_, ?_, ?_, ?_, ?_⟩
      · right; left
        simp [Sys.setTh, Sys.th, threadShape, hres]
      · simpa [Sys.setTh, Sys.th] using shB
      · intro h
        rfl
      · intro h
        simp only [Sys.setTh, Sys.th] at h
        rw [hBnot] at h
        cases h
      · simpa [Sys.setTh, Sys.th, ThreadState.gotDuration] using acct
    case true =>
      simp only [Sys.th] at hp
      rcases shB with ⟨hprog, hhold, hres⟩ | ⟨hprog, hhold, hres⟩ |
        ⟨hprog, hhold⟩ | ⟨hprog, hhold⟩ | ⟨hprog, hhold⟩ <;>
        rw [hprog] at hp <;> simp [endProgram] at hp
      subst hp
      have hAnot : s.thA.holding = false := by
        cases hA : s.thA.holding
        · rfl
        · exact absurd (lkA hA) (by rw [hl]; simp)
      refine ⟨?_, ?_, ?_, ?_, ?_⟩
      · simpa [Sys.setTh, Sys.th] using shA
      · right; left
        simp [Sys.setTh, Sys.th, threadShape, hres]
      · intro h
        simp only [Sys.setTh, Sys.th] at h
        rw [hAnot] at h
        cases h
      · intro h
        rfl
      · simpa [Sys.setTh, Sys.th, ThreadState.gotDuration] using acct
  | beginStep w p id' ct hp =>
    cases w
    case false =>
      simp only [Sys.th] at hp
      rcases shA with ⟨hprog, hhold, hres⟩ | ⟨hprog, hhold, hres⟩ |
        ⟨hprog, hhold⟩ | ⟨hprog, hhold⟩ | ⟨hprog, hhold⟩ <;>
        rw [hprog] at hp <;> simp [endProgram] at hp
    case true =>
      simp only [Sys.th] at hp
      rcases shB with ⟨hprog, hhold, hres⟩ | ⟨hprog, hhold, hres⟩ |
        ⟨hprog, hhold⟩ | ⟨hprog, hhold⟩ | ⟨hprog, hhold⟩ <;>
        rw [hprog] at hp <;> simp [endProgram] at hp
  | endStepHit w p id' ct t0' hp hl =>
    cases w
    case false =>
      simp only [Sys.th] at hp
      rcases shA with ⟨hprog, hhold, hres⟩ | ⟨hprog, hhold, hres⟩ |
        ⟨hprog, hhold⟩ | ⟨hprog, hhold⟩ | ⟨hprog, hhold⟩ <;>
        rw [hprog] at hp <;> simp [endProgram] at hp
      obtain ⟨⟨hid, hct⟩, hp3⟩ := hp
      subst hid
      subst hct
      subst hp3
      rcases acct with ⟨htab, hgA, hgB⟩ | ⟨htab, hng⟩
      · rw [htab] at hl
        simp [Table.lookup] at hl
        subst hl
        refine ⟨?_, ?_, ?_, ?_, ?_⟩
        · right; right; left
          simp [Sys.setTh, Sys.th, hhold]
        · simpa [Sys.setTh, Sys.th] using shB
        · intro h
          exact lkA hhold
        · intro h
          exact lkB h
        · right
          refine ⟨?_, ?_⟩
          · show Table.erase s.table id = []
            rw [htab]
            simp [Table.erase]
          · intro hcon
            exact absurd hcon.2 (by simp [Sys.setTh, Sys.th, hgB])
      · rw [htab] at hl
        simp [Table.lookup] at hl
    case true =>
      simp only [Sys.th] at hp
      rcases shB with ⟨hprog, hhold, hres⟩ | ⟨hprog, hhold, hres⟩ |
        ⟨hprog, hhold⟩ | ⟨hprog, hhold⟩ | ⟨hprog, hhold⟩ <;>
        rw [hprog] at hp <;> simp [endProgram] at hp
      obtain ⟨⟨hid, hct⟩, hp3⟩ := hp
      subst hid
      subst hct
      subst hp3
      rcases acct with ⟨htab, hgA, hgB⟩ | ⟨htab, hng⟩
      · rw [htab] at hl
        simp [Table.lookup] at hl
        subst hl
        refine ⟨?_, ?_, ?_, ?_, ?_⟩
        · simpa [Sys.setTh, Sys.th] using shA
        · right; right; left
          simp [Sys.setTh, Sys.th, hhold]
        · intro h
          exact lkA h
        · intro h
          exact lkB hhold
        · right
          refine ⟨?_, ?_⟩
          · show Table.erase s.table id = []
            rw [htab]
            simp [Table.erase]
          · intro hcon
            exact absurd hcon.1 (by simp [Sys.setTh, Sys.th, hgA])
      · rw [htab] at hl
        simp [Table.lookup] at hl
  | endStepMiss w p id' ct hp hl =>
    cases w
    case false =>
      simp only [Sys.th] at hp
      rcases shA with ⟨hprog, hhold, hres⟩ | ⟨hprog, hhold, hres⟩ |
        ⟨hprog, hhold⟩ | ⟨hprog, hhold⟩ | ⟨hprog, hhold⟩ <;>
        rw [hprog] at hp <;> simp [endProgram] at hp
      obtain ⟨⟨hid, hct⟩, hp3⟩ := hp
      subst hid
      subst hct
      subst hp3
      rcases acct with ⟨htab, hgA, hgB⟩ | ⟨htab, hng⟩
      · rw [htab] at hl
        simp [Table.lookup] at hl
      · refine ⟨?_, ?_, ?_, ?_, ?_⟩
        · right; right; left
          simp [Sys.setTh, Sys.th, hhold]
        · simpa [Sys.setTh, Sys.th] using shB
        · intro h
          exact lkA hhold
        · intro h
          exact lkB h
        · right
          refine ⟨htab, ?_⟩
          · intro hcon
            exact absurd hcon.2 (by
              intro hB2
              exact hng ⟨by simpa [Sys.setTh, Sys.th, ThreadState.gotDuration] using hcon.1, hB2⟩)
    case true =>
      simp only [Sys.th] at hp
      rcases shB with ⟨hprog, hhold, hres⟩ | ⟨hprog, hhold, hres⟩ |
        ⟨hprog, hhold⟩ | ⟨hprog, hhold⟩ | ⟨hprog, hhold⟩ <;>
        rw [hprog] at hp <;> simp [endProgram] at hp
      obtain ⟨⟨hid, hct⟩, hp3⟩ := hp
      subst hid
      subst hct
      subst hp3
      rcases acct with ⟨htab, hgA, hgB⟩ | ⟨htab, hng⟩
      · rw [htab] at hl
        simp [Table.lookup] at hl
      · refine ⟨?_, ?_, ?_, ?_, ?_⟩
        · simpa [Sys.setTh, Sys.th] using shA
        · right; right; left
          simp [Sys.setTh, Sys.th, hhold]
        · intro h
          exact lkA h
        · intro h
          exact lkB hhold
        · right
          refine ⟨htab, ?_⟩
          · intro hcon
            exact absurd hcon.1 (by
              intro hA2
              exact hng ⟨hA2, by simpa [Sys.setTh, Sys.th, ThreadState.gotDuration] using hcon.2⟩)
  | releaseStep w p hp =>
    cases w
    case false =>
      simp only [Sys.th] at hp
      rcases shA with ⟨hprog, hhold, hres⟩ | ⟨hprog, hhold, hres⟩ |
        ⟨hprog, hhold⟩ | ⟨hprog, hhold⟩ | ⟨hprog, hhold⟩ <;>
        rw [hprog] at hp <;> simp [endProgram] at hp
      subst hp
      have hBnot : s.thB.holding = false := by
        cases hB : s.thB.holding
        · rfl
        · have h1 := lkA hhold
          have h2 := lkB hB
          rw [h1] at h2
          simp at h2
      refine ⟨?_, ?_, ?_, ?_, ?_⟩
      · right; right; right; left
        simp [Sys.setTh, Sys.th]
      · simpa [Sys.setTh, Sys.th] using shB
      · intro h
        simp only [Sys.setTh, Sys.th] at h
        cases h
      · intro h
        simp only [Sys.setTh, Sys.th] at h
        rw [hBnot] at h
        cases h
      · simpa [Sys.setTh, Sys.th, ThreadState.gotDuration] using acct
    case true =>
      simp only [Sys.th] at hp
      rcases shB with ⟨hprog, hhold, hres⟩ | ⟨hprog, hhold, hres⟩ |
        ⟨hprog, hhold⟩ | ⟨hprog, hhold⟩ | ⟨hprog, hhold⟩ <;>
        rw [hprog] at hp <;> simp [endProgram] at hp
      subst hp
      have hAnot : s.thA.holding = false := by
        cases hA : s.thA.holding
        · rfl
        · have h1 := lkB hhold
          have h2 := lkA hA
          rw [h1] at h2
          simp at h2
      refine ⟨?_, ?_, ?_, ?_, ?_⟩
      · simpa [Sys.setTh, Sys.th] using shA
      · right; right; right; left
        simp [Sys.setTh, Sys.th]
      · intro h
        simp only [Sys.setTh, Sys.th] at h
        rw [hAnot] at h
        cases h
      · intro h
        simp only [Sys.setTh, Sys.th] at h
        cases h
      · simpa [Sys.setTh, Sys.th, ThreadState.gotDuration] using acct
  | logStep w p hp =>
    cases w
    case false =>
      simp only [Sys.th] at hp
      rcases shA with ⟨hprog, hhold, hres⟩ | ⟨hprog, hhold, hres⟩ |
        ⟨hprog, hhold⟩ | ⟨hprog, hhold⟩ | ⟨hprog, hhold⟩ <;>
        rw [hprog] at hp <;> simp [endProgram] at hp
      subst hp
      refine ⟨?_, ?_, ?_, ?_, ?_⟩
      · right; right; right; right
        simp [Sys.setTh, Sys.th, hhold]
      · simpa [Sys.setTh, Sys.th] using shB
      · intro h
        simp only [Sys.setTh, Sys.th] at h
        rw [hhold] at h
        cases h
      · intro h
        exact lkB h
      · simpa [Sys.setTh, Sys.th, ThreadState.gotDuration] using acct
    case true =>
      simp only [Sys.th] at hp
      rcases shB with ⟨hprog, hhold, hres⟩ | ⟨hprog, hhold, hres⟩ |
        ⟨hprog, hhold⟩ | ⟨hprog, hhold⟩ | ⟨hprog, hhold⟩ <;>
        rw [hprog] at hp <;> simp [endProgram] at hp
      subst hp
      refine ⟨?_, ?_, ?_, ?_, ?_⟩
      · simpa [Sys.setTh, Sys.th] using shA
      · right; right; right; right
        simp [Sys.setTh, Sys.th, hhold]
      · intro h
        exact lkA h
      · intro h
        simp only [Sys.setTh, Sys.th] at h
        rw [hhold] at h
        cases h
      · simpa [Sys.setTh, Sys.th, ThreadState.gotDuration] using acct

/-! ## Claim theorems -/

/-- C1 (counterexample): the claim says the restart marker has `kind == '+'`;
at a concrete activation the single emitted record is
`_log('0', info='restarted')`, whose kind character is `'0'`, not `'+'`. -/
theorem activation_restart_marker_counterexample :
    (start_timelogging "260101T000000" (some ⟨"/var/log/req"⟩)).2.filterMap
        Action.emittedRecord =
      [⟨"260101T000000", 0, 0, '0', 0, "restarted"⟩] ∧
    ('0' : Char) ≠ '+' := ⟨rfl, by decide⟩

/-- C1 (amended): on activation with configuration present, exactly one
record is emitted; it comes first, before the three lifecycle handler
registrations, and it has `info = "restarted"`, `status = 0`,
`request_time = 0` and kind character `'0'` (not `'+'`: the call is
`_log('0', info='restarted')`, matching the module docstring "all other
fields are 0"). -/
theorem activation_restart_marker (ts : String) (cfg : ProductConfig) :
    (start_timelogging ts (some cfg)).2.filterMap Action.emittedRecord =
      [⟨ts, 0, 0, '0', 0, "restarted"⟩] ∧
    (start_timelogging ts (some cfg)).2.head? =
      some (Action.emit ⟨ts, 0, 0, '0', 0, "restarted"⟩
        (log_emit (start_timelogging ts (some cfg)).1 ⟨ts, 0, 0, '0', 0, "restarted"⟩)) ∧
    ((start_timelogging ts (some cfg)).2.drop 1).all Action.isRegister = true ∧
    ((start_timelogging ts (some cfg)).2.drop 1).length = 3 := by
  by_cases h : cfg.filebase = STDERR <;>
    simp [start_timelogging, h, Action.emittedRecord, Action.isRegister]

/-- C2 (counterexample): the claim requires the response state to be
restored on every exit path, including when the delegated success-path
resolution raises.  There is no `try/finally`: with an empty timing table
the delegated `handle_request_success` raises a `KeyError`, the exception
propagates, and the response keeps the forced status `500` instead of its
prior value `200`. -/
theorem failure_restore_counterexample :
    handle_request_failure none "T" 0 ⟨1, "i", false, 500⟩ ⟨[], [("status", 200)]⟩ =
      (.error (.keyError 1), ⟨[], [("status", 500)]⟩) ∧
    ((500 : Int) ≠ 200) := ⟨rfl, by decide⟩

/-- C2 (amended): for a non-retried failure event, when the delegated
success-path resolution returns normally, `response.__dict__.update(saved)`
restores every field that was present before the handler to its
pre-handler value; on a raising exit path no restoration happens (see the
counterexample). -/
theorem failure_restores_on_normal_return (istatus : StatusAdapter)
    (ts : String) (ct : ℚ) (ev : FailureEvent) (w : World) (r : Record)
    (w' : World) (k : String) (v : Int)
    (hretry : ev.retry = false)
    (hnd : (Dict.keys w.response).Nodup)
    (hok : handle_request_failure istatus ts ct ev w = (.ok r, w'))
    (hk : Dict.get w.response k = some v) :
    Dict.get w'.response k = some v := by
  rw [handle_request_failure, hretry] at hok
  simp only [Bool.false_eq_true, if_false] at hok
  rcases hsucc : handle_request_success istatus ts ct ev.id ev.info
      { w with response := setStatus w.response ev.excStatus } with ⟨res, w2⟩
  rw [hsucc] at hok
  rcases res with e | r2
  · simp at hok
  · rw [Prod.mk.injEq] at hok
    obtain ⟨-, h2⟩ := hok
    rw [← h2]
    exact get_update_mem _ _ _ _ hnd hk

/-- C2 (witness): concrete non-retried failure with an open entry; both
pre-existing fields (the forced `status` and an unrelated `body`) are
restored on the normal return. -/
theorem failure_restores_on_normal_return_witness :
    Dict.get ([("status", (200 : Int)), ("body", (7 : Int))] : Dict Int) "status" =
      some 200 :=
  failure_restores_on_normal_return none "T" 3 ⟨1, "i", false, 500⟩
    ⟨[(1, 0)], [("status", 200), ("body", 7)]⟩
    ⟨"T", 500, (3 : ℚ) - 0, '-', 1, "i"⟩
    ⟨[], [("status", 200), ("body", 7)]⟩ "status" 200 rfl (by decide) rfl rfl

/-- C3: a failure event with the retry flag set that emits a record always
emits a terminal (`'-'`) record with status 390, whatever the exception
status or the response's real status. -/
theorem retry_sentinel_390 (istatus : StatusAdapter) (ts : String) (ct : ℚ)
    (ev : FailureEvent) (w : World) (r : Record) (w' : World)
    (hretry : ev.retry = true)
    (hok : handle_request_failure istatus ts ct ev w = (.ok r, w')) :
    r.status = 390 ∧ r.kind = '-' := by
  rw [handle_request_failure, hretry] at hok
  simp only [if_true] at hok
  rw [account_request] at hok
  simp only [show (390 : Int) ≠ 0 by decide, if_true, ne_eq, not_false_iff] at hok
  rcases hlk : Table.lookup w.table ev.id with _ | t0 <;> rw [hlk] at hok
  · simp at hok
  · rw [Prod.mk.injEq] at hok
    obtain ⟨h1, -⟩ := hok
    cases h1
    exact ⟨rfl, by norm_num⟩

/-- C3 (witness): a concrete retried failure (exception status 99, open
entry at time 0, failure at time 2) emits status 390. -/
theorem retry_sentinel_390_witness :
    (Record.mk "T" 390 ((2 : ℚ) - 0) '-' 1 "i").status = 390 ∧
    (Record.mk "T" 390 ((2 : ℚ) - 0) '-' 1 "i").kind = '-' :=
  retry_sentinel_390 none "T" 2 ⟨1, "i", true, 99⟩ ⟨[(1, 0)], []⟩
    ⟨"T", 390, (2 : ℚ) - 0, '-', 1, "i"⟩ ⟨[], []⟩ rfl rfl

/-- C4: on a success event whose resolved status (adapter, else raw
`getStatus`) is zero, `assert status` fails: the handler raises
`AssertionError`, emits nothing, and leaves the state untouched. -/
theorem success_zero_status_assert (istatus : StatusAdapter) (ts : String)
    (ct : ℚ) (id : Int) (info : String) (w : World)
    (h0 : resolve_status istatus w.response = .ok 0) :
    handle_request_success istatus ts ct id info w =
      (.error .assertionError, w) := by
  simp [handle_request_success, h0]

/-- C4 (witness): with no adapter and a response whose raw status is 0, the
success handler raises the assertion. -/
theorem success_zero_status_assert_witness :
    handle_request_success none "T" 0 1 "i" ⟨[], []⟩ =
      (.error .assertionError, ⟨[], []⟩) :=
  success_zero_status_assert none "T" 0 1 "i" ⟨[], []⟩ rfl

/-- C5: a terminal event (nonzero status) for an id with no open entry
raises `KeyError` (propagated, not swallowed): no record is emitted, no
duration fabricated, and the table is unchanged. -/
theorem terminal_missing_entry_keyerror (table : Table) (ts : String)
    (ct : ℚ) (id : Int) (info : String) (status : Int)
    (hs : status ≠ 0) (hl : Table.lookup table id = none) :
    account_request table ts ct id info status =
      (.error (.keyError id), table) := by
  simp [account_request, hs, hl]

/-- C5 (witness): a terminal event with status 390 for id 5 on an empty
table raises `KeyError(5)`. -/
theorem terminal_missing_entry_keyerror_witness :
    account_request [] "T" 1 5 "i" 390 = (.error (.keyError 5), []) :=
  terminal_missing_entry_keyerror [] "T" 1 5 "i" 390 (by decide) rfl

/-- C6: a start event for an id that already has an open entry succeeds
silently (no rejection, no exception) and overwrites the stored start time
with the new timestamp. -/
theorem duplicate_start_overwrites (table : Table) (ts : String) (ct : ℚ)
    (id : Int) (info : String) (t0 : ℚ)
    (hopen : Table.lookup table id = some t0) :
    account_request table ts ct id info 0 =
      (.ok ⟨ts, 0, 0, '+', id, info⟩, Table.insert table id ct) ∧
    Table.lookup (Table.insert table id ct) id = some ct := by
  exact ⟨by simp [account_request], lookup_insert_self table id ct⟩

/-- C6 (witness): id 1 opened at time 2 and started again at time 5 now
maps to 5. -/
theorem duplicate_start_overwrites_witness :
    account_request [(1, (2 : ℚ))] "T" 5 1 "i" 0 =
      (.ok ⟨"T", 0, 0, '+', 1, "i"⟩, Table.insert [(1, (2 : ℚ))] 1 5) ∧
    Table.lookup (Table.insert [(1, (2 : ℚ))] 1 5) 1 = some 5 :=
  duplicate_start_overwrites [(1, (2 : ℚ))] "T" 5 1 "i" 2 rfl

/-- C7: the record layout `'%s %3d %10.4f %c %6d %s\n'` with timestamp
format `%y%m%dT%H%M%S`; in particular status 200, request_time 1.2345,
kind `'-'`, id 7, info `"GET /x"` renders as
`"<ts> 200     1.2345 -      7 GET /x\n"`, and a wider status (1234) is not
truncated. -/
theorem log_format_exactness :
    log_time_format = "%y%m%dT%H%M%S" ∧
    (∀ ts : String, log_format ts 200 (mkRat 12345 10000) '-' 7 "GET /x" =
      ts ++ " 200     1.2345 -      7 GET /x\n") ∧
    (∀ ts : String, log_format ts 1234 0 '-' 7 "GET /x" =
      ts ++ " 1234     0.0000 -      7 GET /x\n") := by
  refine ⟨rfl, fun ts => ?_, fun ts => ?_⟩ <;>
    · simp only [log_format, String.append_assoc]
      congr 1

/-- C8: a start for id on a table without it followed by a terminal event:
the start record has `request_time = 0`, `status = 0`, kind `'+'`; the
terminal record's `request_time` is the terminal timestamp minus the start
timestamp; and the terminal event removes the entry. -/
theorem start_terminal_pairing (table : Table) (ts0 ts1 : String)
    (ct0 ct1 : ℚ) (id : Int) (info0 info1 : String) (status : Int)
    (hs : status ≠ 0) :
    account_request table ts0 ct0 id info0 0 =
      (.ok ⟨ts0, 0, 0, '+', id, info0⟩, Table.insert table id ct0) ∧
    account_request (Table.insert table id ct0) ts1 ct1 id info1 status =
      (.ok ⟨ts1, status, ct1 - ct0, '-', id, info1⟩,
        Table.erase (Table.insert table id ct0) id) ∧
    Table.lookup (Table.erase (Table.insert table id ct0) id) id = none := by
  refine ⟨by simp [account_request], ?_, lookup_erase_self _ _⟩
  simp [account_request, hs, lookup_insert_self]

/-- C8 (witness): start at time 1, success with status 200 at time 3: the
terminal record carries duration 3 - 1 and the entry is gone. -/
theorem start_terminal_pairing_witness :
    account_request [] "T0" 1 1 "GET /x" 0 =
      (.ok ⟨"T0", 0, 0, '+', 1, "GET /x"⟩, Table.insert [] 1 1) ∧
    account_request (Table.insert [] 1 1) "T1" 3 1 "GET /x" 200 =
      (.ok ⟨"T1", 200, (3 : ℚ) - 1, '-', 1, "GET /x"⟩,
        Table.erase (Table.insert [] 1 1) 1) ∧
    Table.lookup (Table.erase (Table.insert [] 1 1) 1) 1 = none :=
  start_terminal_pairing [] "T0" "T1" 1 3 1 "GET /x" "GET /x" 200 (by decide)

/-- C9: in the interleaving model of `account_request`, in every state
reachable from two concurrent terminal calls for the same id over one open
entry: the two threads never hold `_lock` at once; a thread whose next step
is a map operation holds the lock (so every table mutation runs under it);
the table is never corrupted (it is the original entry or empty); the two
threads never both obtain a duration from the single start entry; and both
call shapes keep exactly one map operation inside the lock with logging
outside it. -/
theorem lock_exclusivity (id : Int) (ct1 ct2 t0 : ℚ) (s : Sys)
    (h : Reachable (initSys id ct1 ct2 t0) s) :
    ¬(s.thA.holding = true ∧ s.thB.holding = true) ∧
    (∀ w : Bool, headIsMapOp (s.th w).prog = true →
      (s.th w).holding = true ∧ s.lock = some w) ∧
    (s.table = [(id, t0)] ∨ s.table = []) ∧
    ¬(s.thA.gotDuration = true ∧ s.thB.gotDuration = true) ∧
    (∀ id' : Int, ∀ ct' : ℚ, lockDiscipline (beginProgram id' ct') = true ∧
      lockDiscipline (endProgram id' ct') = true ∧
      mapOpCount (beginProgram id' ct') = 1 ∧
      mapOpCount (endProgram id' ct') = 1) := by
  have h' : Relation.ReflTransGen SysStep (initSys id ct1 ct2 t0) s := h
  clear h
  have hinv : Inv id ct1 ct2 t0 s := by
    induction h' with
    | refl => exact Inv_init id ct1 ct2 t0
    | tail hr hstep ih => exact Inv_step ih hstep
  obtain ⟨shA, shB, lkA, lkB, acct⟩ := hinv
  refine ⟨?_, ?_, ?_, ?_, ?_⟩
  · rintro ⟨hA, hB⟩
    have h1 := lkA hA
    have h2 := lkB hB
    rw [h1] at h2
    simp at h2
  · intro w hw
    cases w
    case false =>
      simp only [Sys.th] at hw ⊢
      rcases shA with ⟨hprog, hhold, hres⟩ | ⟨hprog, hhold, hres⟩ |
        ⟨hprog, hhold⟩ | ⟨hprog, hhold⟩ | ⟨hprog, hhold⟩ <;>
        rw [hprog] at hw <;> simp [headIsMapOp, isMapOp, endProgram] at hw
      exact ⟨hhold, lkA hhold⟩
    case true =>
      simp only [Sys.th] at hw ⊢
      rcases shB with ⟨hprog, hhold, hres⟩ | ⟨hprog, hhold, hres⟩ |
        ⟨hprog, hhold⟩ | ⟨hprog, hhold⟩ | ⟨hprog, hhold⟩ <;>
        rw [hprog] at hw <;> simp [headIsMapOp, isMapOp, endProgram] at hw
      exact ⟨hhold, lkB hhold⟩
  · rcases acct with ⟨htab, -, -⟩ | ⟨htab, -⟩
    · exact Or.inl htab
    · exact Or.inr htab
  · rcases acct with ⟨-, hgA, -⟩ | ⟨-, hng⟩
    · rintro ⟨hA, -⟩
      rw [hgA] at hA
      cases hA
    · exact hng
  · intro id' ct'
    exact ⟨rfl, rfl, rfl, rfl⟩

/-- C9 (witness): the initial state of two terminal calls for id 1 over an
entry opened at time 2 satisfies the mutual-exclusion and
table-integrity conclusions. -/
theorem lock_exclusivity_witness :
    ¬((initSys 1 5 7 2).thA.holding = true ∧
        (initSys 1 5 7 2).thB.holding = true) ∧
    ((initSys 1 5 7 2).table = [(1, 2)] ∨ (initSys 1 5 7 2).table = []) :=
  ⟨(lock_exclusivity 1 5 7 2 (initSys 1 5 7 2) Relation.ReflTransGen.refl).1,
   (lock_exclusivity 1 5 7 2 (initSys 1 5 7 2) Relation.ReflTransGen.refl).2.2.1⟩

/-- C10: with `filebase == "/dev/stderr"` every record goes to the logger
with leading/trailing whitespace stripped — losing the trailing newline,
and for empty `info` also the trailing separator space — unlike file mode,
which writes the newline-terminated line; with no logfile configured,
`_log` emits nothing. -/
theorem stderr_logger_mode :
    (∀ r : Record, log_emit none r = .nothing) ∧
    (∀ r : Record, log_emit (some .stderrSentinel) r =
      .loggerInfo (pythonStrip (render r))) ∧
    log_emit (some .stderrSentinel) ⟨"260101T120000", 200, 0, '-', 7, "GET /x"⟩ =
      .loggerInfo "260101T120000 200     0.0000 -      7 GET /x" ∧
    log_emit (some .stderrSentinel) ⟨"260101T120000", 0, 0, '+', 0, ""⟩ =
      .loggerInfo "260101T120000   0     0.0000 +      0" ∧
    log_emit (some (.rotator "/var/log/req")) ⟨"260101T120000", 200, 0, '-', 7, "GET /x"⟩ =
      .fileWrite "260101T120000 200     0.0000 -      7 GET /x\n" :=
  ⟨fun r => rfl, fun r => rfl, by decide, by decide, by decide⟩

end Timelogging
